import Mathlib

/-!
Verification of the SecretMessenger real-time fan-out and conversation-state
subsystem.  The definitions below are shallow embeddings of the Python source:

* `backend/app/main.py` — `ConnectionManager` (connection registry and
  fan-out) and the `create_or_get_direct_chat` route, over the models of
  `backend/app/models.py`;
* `backend/app/services/message.py` — `MessageService` mutation operations;
* `backend/app/services/chat.py` — `ChatService.get_direct_conversation`
  and `ChatService.get_unread_count`;
* `backend/alembic/versions/001_initial_schema.py` — the relational
  constraints (foreign keys, uniqueness) enforced by the schema at commit
  time.

Python exceptions are modelled with `Except String`; `datetime.utcnow()`
is an explicit `now : Nat` parameter; database tables are lists of rows in
insertion order; a Python `dict` is an association list with distinct keys
in insertion order.
-/

namespace SecretMessenger

/-! ## Connection registry (`ConnectionManager`, `backend/app/main.py` lines 38-66)

`active_connections : Dict[int, List[WebSocket]]`.  A `Conn` stands for a
WebSocket handle; its `ok` flag records whether `send_json` on it succeeds
(`ok = false` stands for a send that raises). -/

structure Conn where
  id : Nat
  ok : Bool
deriving DecidableEq, Repr

/-- One send attempt: `send_json ev` was invoked on connection `conn`,
which is registered under user id `user`.  The event is actually received
iff `conn.ok = true` (otherwise `send_json` raises and the `except: pass`
swallows it). -/
structure Delivery where
  user : Nat
  conn : Conn
  event : Nat
deriving DecidableEq, Repr

abbrev Registry := List (Nat × List Conn)

/-- `user_id in self.active_connections` / `self.active_connections[user_id]`. -/
def lookupConns (reg : Registry) (uid : Nat) : Option (List Conn) :=
  (reg.find? (fun p => p.1 == uid)).map (fun p => p.2)

/-- The connection list of `uid`, empty when the key is absent. -/
def liveConns (reg : Registry) (uid : Nat) : List Conn :=
  (lookupConns reg uid).getD []

/-- `ConnectionManager.connect` (the part after `websocket.accept()`):
create the key with an empty list when absent, then append the handle. -/
def connect (reg : Registry) (uid : Nat) (ws : Conn) : Registry :=
  match lookupConns reg uid with
  | none => reg ++ [(uid, [ws])]
  | some _ => reg.map (fun p => if p.1 == uid then (p.1, p.2 ++ [ws]) else p)

/-- `ConnectionManager.disconnect`.  Python's `list.remove` deletes the
first occurrence of the handle and raises `ValueError` when the handle is
absent; `del` drops the key when the remaining list is empty.  The guard
`if user_id in self.active_connections` makes the call a no-op only when
the user has no entry at all. -/
def disconnect (reg : Registry) (uid : Nat) (ws : Conn) : Except String Registry :=
  match lookupConns reg uid with
  | none => .ok reg
  | some conns =>
    if ws ∈ conns then
      if conns.erase ws = [] then .ok (reg.filter (fun p => !(p.1 == uid)))
      else .ok (reg.map (fun p => if p.1 == uid then (p.1, conns.erase ws) else p))
    else .error "ValueError: list.remove(x): x not in list"

/-- `ConnectionManager.send_to_user`: loops over the user's connections and
invokes `send_json` on each inside `try .. except: pass`.  No branch
mutates the registry, and a raising send neither stops the loop nor
escapes, so every registered connection of `uid` gets exactly one send
attempt and the registry is returned unchanged. -/
def send_to_user (reg : Registry) (uid : Nat) (ev : Nat) : Registry × List Delivery :=
  match lookupConns reg uid with
  | none => (reg, [])
  | some conns => (reg, conns.map (fun c => ⟨uid, c, ev⟩))

/-- A `chat_participants` row (`ChatParticipant`, `backend/app/models.py`). -/
structure MPart where
  chat_id : Nat
  user_id : Nat
deriving DecidableEq, Repr

/-- A `chats` row (`Chat`, `backend/app/models.py`). -/
structure MChat where
  id : Nat
  name : String
deriving DecidableEq, Repr

/-- The relational state visible to `backend/app/main.py`: `users` rows as
(id, username), `chats` and `chat_participants` rows in insertion order;
`nextChatId` is the next autoincrement id of `chats`. -/
structure MainDB where
  users : List (Nat × String)
  chats : List MChat
  chatParticipants : List MPart
  nextChatId : Nat
deriving DecidableEq, Repr

/-- The loop of `ConnectionManager.send_to_chat`: for each participant row,
Python tests `participant.user_id != exclude_user_id` (where
`exclude_user_id` may be `None`, which compares unequal to every int) and
calls `send_to_user` when the test passes. -/
def send_to_chat_loop (ev : Nat) (excl : Option Nat) :
    Registry → List MPart → Registry × List Delivery
  | reg, [] => (reg, [])
  | reg, r :: rest =>
    if some r.user_id ≠ excl then
      let p := send_to_user reg r.user_id ev
      let q := send_to_chat_loop ev excl p.1 rest
      (q.1, p.2 ++ q.2)
    else send_to_chat_loop ev excl reg rest

/-- `ConnectionManager.send_to_chat`: queries the chat's participant rows
fresh from the Store, then fans the event out. -/
def send_to_chat (db : MainDB) (reg : Registry) (chatId ev : Nat)
    (excl : Option Nat) : Registry × List Delivery :=
  send_to_chat_loop ev excl reg (db.chatParticipants.filter (fun r => r.chat_id == chatId))

theorem send_to_user_fst (reg : Registry) (uid ev : Nat) :
    (send_to_user reg uid ev).1 = reg := by
  unfold send_to_user
  cases lookupConns reg uid <;> rfl

theorem mem_send_to_user_snd (reg : Registry) (uid ev : Nat) (d : Delivery) :
    d ∈ (send_to_user reg uid ev).2 ↔
      d.user = uid ∧ d.conn ∈ liveConns reg uid ∧ d.event = ev := by
  unfold send_to_user liveConns
  cases h : lookupConns reg uid with
  | none =>
    simp only [h, Option.getD_none]
    simp
  | some conns =>
    simp only [h, Option.getD_some, List.mem_map]
    constructor
    · rintro ⟨c, hc, rfl⟩
      exact ⟨rfl, hc, rfl⟩
    · rintro ⟨h1, h2, h3⟩
      exact ⟨d.conn, h2, by cases d; simp_all⟩

theorem send_to_chat_loop_fst (ev : Nat) (excl : Option Nat) (rows : List MPart)
    (reg : Registry) : (send_to_chat_loop ev excl reg rows).1 = reg := by
  induction rows generalizing reg with
  | nil => rfl
  | cons r rest ih =>
    unfold send_to_chat_loop
    by_cases h : some r.user_id ≠ excl
    · simp only [if_pos h, send_to_user_fst]
      exact ih reg
    · simp only [if_neg h]
      exact ih reg

theorem mem_send_to_chat_loop_snd (ev : Nat) (excl : Option Nat) (rows : List MPart)
    (reg : Registry) (d : Delivery) :
    d ∈ (send_to_chat_loop ev excl reg rows).2 ↔
      ∃ r ∈ rows, some r.user_id ≠ excl ∧ d.user = r.user_id ∧
        d.conn ∈ liveConns reg r.user_id ∧ d.event = ev := by
  induction rows generalizing reg with
  | nil => simp [send_to_chat_loop]
  | cons r rest ih =>
    unfold send_to_chat_loop
    by_cases h : some r.user_id ≠ excl
    · simp only [if_pos h, send_to_user_fst, List.mem_append, mem_send_to_user_snd, ih]
      constructor
      · rintro (⟨h1, h2, h3⟩ | ⟨r', hr', h1, h2, h3, h4⟩)
        · exact ⟨r, List.mem_cons_self r rest, h, h1, h2, h3⟩
        · exact ⟨r', List.mem_cons_of_mem r hr', h1, h2, h3, h4⟩
      · rintro ⟨r', hr', h1, h2, h3, h4⟩
        rcases List.mem_cons.mp hr' with rfl | hr'
        · exact Or.inl ⟨h2, h3, h4⟩
        · exact Or.inr ⟨r', hr', h1, h2, h3, h4⟩
    · simp only [if_neg h, ih]
      constructor
      · rintro ⟨r', hr', h1, h2, h3, h4⟩
        exact ⟨r', List.mem_cons_of_mem r hr', h1, h2, h3, h4⟩
      · rintro ⟨r', hr', h1, h2, h3, h4⟩
        rcases List.mem_cons.mp hr' with rfl | hr'
        · exact absurd h1 h
        · exact ⟨r', hr', h1, h2, h3, h4⟩

/-! ## Registry lifecycle invariant (claims C6, C10) -/

/-- Well-formedness of the embedded `dict`: distinct keys (a Python dict
cannot hold a key twice) and — the invariant claimed by C10 — every
present user id maps to a non-empty connection list. -/
def WFReg (reg : Registry) : Prop :=
  (reg.map (fun p => p.1)).Nodup ∧ ∀ p ∈ reg, p.2 ≠ []

/-- A connect or disconnect call on the shared `ConnectionManager`. -/
inductive RegOp where
  | connect (uid : Nat) (ws : Conn)
  | disconnect (uid : Nat) (ws : Conn)
deriving DecidableEq, Repr

/-- Runs a sequence of lifecycle calls; stops at the first raised
`ValueError`. -/
def applyOps : List RegOp → Registry → Except String Registry
  | [], reg => .ok reg
  | .connect uid ws :: rest, reg => applyOps rest (connect reg uid ws)
  | .disconnect uid ws :: rest, reg =>
    match disconnect reg uid ws with
    | .ok reg' => applyOps rest reg'
    | .error e => .error e

theorem lookupConns_eq_none (reg : Registry) (uid : Nat)
    (h : lookupConns reg uid = none) : ∀ p ∈ reg, p.1 ≠ uid := by
  intro p hp
  unfold lookupConns at h
  cases hf : reg.find? (fun p => p.1 == uid) with
  | some q => rw [hf] at h; simp at h
  | none =>
    have := List.find?_eq_none.mp hf p hp
    simpa using this

/-- Keys are untouched by the per-entry update used in `connect` and
`disconnect`. -/
theorem map_update_keys (reg : Registry) (uid : Nat) (g : List Conn → List Conn) :
    ((reg.map (fun p => if p.1 == uid then (p.1, g p.2) else p)).map
        (fun p => p.1)) = reg.map (fun p => p.1) := by
  rw [List.map_map]
  apply List.map_congr_left
  intro p _
  simp only [Function.comp_apply]
  split <;> rfl

theorem WFReg_connect (reg : Registry) (uid : Nat) (ws : Conn)
    (h : WFReg reg) : WFReg (connect reg uid ws) := by
  obtain ⟨hnd, hne⟩ := h
  unfold connect
  cases hl : lookupConns reg uid with
  | none =>
    refine ⟨?_, ?_⟩
    · rw [List.map_append, List.nodup_append]
      refine ⟨hnd, by simp, ?_⟩
      intro a ha hb
      simp only [List.map_cons, List.map_nil, List.mem_singleton] at hb
      rcases List.mem_map.mp ha with ⟨p, hp, hpa⟩
      exact lookupConns_eq_none reg uid hl p hp (hpa.trans hb)
    · intro p hp
      rcases List.mem_append.mp hp with hp | hp
      · exact hne p hp
      · simp only [List.mem_singleton] at hp
        subst hp
        simp
  | some conns =>
    refine ⟨?_, ?_⟩
    · rw [map_update_keys reg uid (fun l => l ++ [ws])]
      exact hnd
    · intro p hp
      rcases List.mem_map.mp hp with ⟨q, hq, rfl⟩
      split
      · simp
      · exact hne q hq

theorem WFReg_disconnect (reg : Registry) (uid : Nat) (ws : Conn) (reg' : Registry)
    (h : WFReg reg) (hd : disconnect reg uid ws = .ok reg') : WFReg reg' := by
  obtain ⟨hnd, hne⟩ := h
  unfold disconnect at hd
  split at hd
  · cases hd
    exact ⟨hnd, hne⟩
  · rename_i conns hl
    split at hd
    · rename_i hmem
      split at hd
      · rename_i hnil
        cases hd
        refine ⟨?_, ?_⟩
        · exact List.Nodup.sublist (List.Sublist.map _ (List.filter_sublist reg)) hnd
        · intro p hp
          exact hne p (List.mem_of_mem_filter hp)
      · rename_i hnil
        cases hd
        refine ⟨?_, ?_⟩
        · rw [map_update_keys reg uid (fun _ => conns.erase ws)]
          exact hnd
        · intro p hp
          rcases List.mem_map.mp hp with ⟨q, hq, rfl⟩
          split
          · exact hnil
          · exact hne q hq
    · cases hd

theorem applyOps_WF (ops : List RegOp) (reg0 reg : Registry)
    (h0 : WFReg reg0) (h : applyOps ops reg0 = .ok reg) : WFReg reg := by
  induction ops generalizing reg0 with
  | nil =>
    unfold applyOps at h
    cases h
    exact h0
  | cons op rest ih =>
    cases op with
    | connect uid ws =>
      unfold applyOps at h
      exact ih (connect reg0 uid ws) (WFReg_connect reg0 uid ws h0) h
    | disconnect uid ws =>
      unfold applyOps at h
      cases hd : disconnect reg0 uid ws with
      | ok reg1 =>
        rw [hd] at h
        exact ih reg1 (WFReg_disconnect reg0 uid ws reg1 h0 hd) h
      | error e =>
        rw [hd] at h
        cases h

/-! ## Claims about the registry and fan-out (C1, C6, C7, C10) -/

/-- Example store for the C1 witness: chat 1 has participants 1 and 2;
user 3 exists but is not a participant. -/
def fanoutExampleDB : MainDB :=
  ⟨[(1, "alice"), (2, "bob"), (3, "carol")], [⟨1, "chat"⟩], [⟨1, 1⟩, ⟨1, 2⟩], 2⟩

/-- Example registry for the C1 witness: users 1, 2 and 3 each have one
live connection. -/
def fanoutExampleReg : Registry :=
  [(1, [⟨1, true⟩]), (2, [⟨2, true⟩]), (3, [⟨3, true⟩])]

/-- Claim C1: conversation fan-out targets exactly the current participants.
No send is attempted on any connection registered to a user `C` who is not a
participant of the chat at fan-out time, and every participant other than
the optionally excluded user gets a send attempt on each of their live
connections. -/
theorem c1_fanout_targets_exactly_participants
    (db : MainDB) (reg : Registry) (chatId ev : Nat) (excl : Option Nat) (C : Nat)
    (hC : ∀ r ∈ db.chatParticipants, r.chat_id = chatId → r.user_id ≠ C) :
    (∀ d ∈ (send_to_chat db reg chatId ev excl).2, d.user ≠ C) ∧
    (∀ r ∈ db.chatParticipants, r.chat_id = chatId → some r.user_id ≠ excl →
      ∀ c ∈ liveConns reg r.user_id,
        (⟨r.user_id, c, ev⟩ : Delivery) ∈ (send_to_chat db reg chatId ev excl).2) := by
  constructor
  · intro d hd
    rw [send_to_chat] at hd
    rcases (mem_send_to_chat_loop_snd ev excl _ reg d).mp hd with ⟨r, hr, _, h2, _, _⟩
    have hrchat : r.chat_id = chatId := by simpa using List.of_mem_filter hr
    rw [h2]
    exact hC r (List.mem_of_mem_filter hr) hrchat
  · intro r hr hchat hexcl c hc
    rw [send_to_chat]
    apply (mem_send_to_chat_loop_snd ev excl _ reg _).mpr
    exact ⟨r, List.mem_filter.mpr ⟨hr, by simpa using hchat⟩, hexcl, rfl, hc, rfl⟩

/-- Witness for C1 on a concrete store and registry: user 3 is not a
participant of chat 1, and the theorem applies. -/
theorem c1_fanout_targets_exactly_participants_witness :
    (∀ r ∈ fanoutExampleDB.chatParticipants, r.chat_id = 1 → r.user_id ≠ 3) ∧
    ((∀ d ∈ (send_to_chat fanoutExampleDB fanoutExampleReg 1 5 (some 1)).2, d.user ≠ 3) ∧
     (∀ r ∈ fanoutExampleDB.chatParticipants, r.chat_id = 1 → some r.user_id ≠ some 1 →
       ∀ c ∈ liveConns fanoutExampleReg r.user_id,
         (⟨r.user_id, c, 5⟩ : Delivery) ∈
           (send_to_chat fanoutExampleDB fanoutExampleReg 1 5 (some 1)).2)) :=
  ⟨by decide,
   c1_fanout_targets_exactly_participants fanoutExampleDB fanoutExampleReg 1 5 (some 1) 3
     (by decide)⟩

/-- Claim C6 (code bug): `disconnect` is a no-op when the user id has no
entry at all (third conjunct), but unregistering an already-unregistered
handle while the user still has another live connection raises
`ValueError` instead of being a no-op: after handle ⟨2⟩ is removed once, a
second `disconnect` of ⟨2⟩ faults because `list.remove` does not find it. -/
theorem c6_double_unregister_raises :
    disconnect [(1, [⟨1, true⟩, ⟨2, true⟩])] 1 ⟨2, true⟩ = .ok [(1, [⟨1, true⟩])] ∧
    disconnect [(1, [⟨1, true⟩])] 1 ⟨2, true⟩ =
      .error "ValueError: list.remove(x): x not in list" ∧
    disconnect [] 1 ⟨2, true⟩ = .ok [] :=
  ⟨rfl, rfl, rfl⟩

/-- Counterexample to claim C7 as stated: the claim says a send failure on
one connection removes that connection from the registry (self-healing).
Here connection ⟨1, false⟩ fails its send (a send attempt on it is part of
the output), yet it is still registered afterwards — `send_to_user` never
removes anything. -/
theorem c7_failing_connection_not_removed :
    (send_to_user [(1, [⟨1, false⟩, ⟨2, true⟩])] 1 7).1 = [(1, [⟨1, false⟩, ⟨2, true⟩])] ∧
    (⟨1, false⟩ : Conn) ∈ liveConns (send_to_user [(1, [⟨1, false⟩, ⟨2, true⟩])] 1 7).1 1 ∧
    (⟨1, false⟩ : Conn).ok = false ∧
    (⟨1, ⟨1, false⟩, 7⟩ : Delivery) ∈ (send_to_user [(1, [⟨1, false⟩, ⟨2, true⟩])] 1 7).2 :=
  ⟨rfl, by decide, rfl, by decide⟩

/-- Claim C7 (amended): a send failure on one connection is swallowed by
`try/except: pass`: the registry is returned unchanged — the failing
connection is NOT removed — every live connection of the user still gets
its own send attempt, chat-level fan-out proceeds on the unchanged
registry, and no exception reaches the caller. -/
theorem c7_send_failure_swallowed
    (reg : Registry) (uid ev : Nat) (c : Conn)
    (hc : c ∈ liveConns reg uid) (_hfail : c.ok = false) :
    (send_to_user reg uid ev).1 = reg ∧
    c ∈ liveConns (send_to_user reg uid ev).1 uid ∧
    (∀ c' ∈ liveConns reg uid, (⟨uid, c', ev⟩ : Delivery) ∈ (send_to_user reg uid ev).2) ∧
    (∀ db chatId excl, (send_to_chat db reg chatId ev excl).1 = reg) := by
  refine ⟨send_to_user_fst reg uid ev, ?_, ?_, ?_⟩
  · rw [send_to_user_fst]
    exact hc
  · intro c' hc'
    exact (mem_send_to_user_snd reg uid ev ⟨uid, c', ev⟩).mpr ⟨rfl, hc', rfl⟩
  · intro db chatId excl
    exact send_to_chat_loop_fst ev excl _ reg

/-- Witness for the amended C7 at a registry holding one failing and one
healthy connection. -/
theorem c7_send_failure_swallowed_witness :
    ((⟨1, false⟩ : Conn) ∈ liveConns [(1, [⟨1, false⟩, ⟨2, true⟩])] 1 ∧
     (⟨1, false⟩ : Conn).ok = false) ∧
    ((send_to_user [(1, [⟨1, false⟩, ⟨2, true⟩])] 1 7).1 = [(1, [⟨1, false⟩, ⟨2, true⟩])] ∧
     (⟨1, false⟩ : Conn) ∈ liveConns (send_to_user [(1, [⟨1, false⟩, ⟨2, true⟩])] 1 7).1 1 ∧
     (∀ c' ∈ liveConns [(1, [⟨1, false⟩, ⟨2, true⟩])] 1,
        (⟨1, c', 7⟩ : Delivery) ∈ (send_to_user [(1, [⟨1, false⟩, ⟨2, true⟩])] 1 7).2) ∧
     (∀ db chatId excl,
        (send_to_chat db [(1, [⟨1, false⟩, ⟨2, true⟩])] chatId 7 excl).1 =
          [(1, [⟨1, false⟩, ⟨2, true⟩])])) :=
  ⟨⟨by decide, rfl⟩,
   c7_send_failure_swallowed [(1, [⟨1, false⟩, ⟨2, true⟩])] 1 7 ⟨1, false⟩ (by decide) rfl⟩

/-- Claim C10: after any successful sequence of connect/disconnect calls
starting from the empty registry, every user id present in
`active_connections` maps to a non-empty connection list, and
`send_to_user` for a user with no entry delivers to zero connections,
leaves the registry unchanged, and raises nothing. -/
theorem c10_registry_maps_to_nonempty
    (ops : List RegOp) (reg : Registry) (h : applyOps ops [] = .ok reg) :
    (∀ uid conns, (uid, conns) ∈ reg → conns ≠ []) ∧
    (∀ uid ev, lookupConns reg uid = none → send_to_user reg uid ev = (reg, [])) := by
  have hwf : WFReg reg := applyOps_WF ops [] reg ⟨by simp, by simp⟩ h
  constructor
  · intro uid conns hm
    exact hwf.2 (uid, conns) hm
  · intro uid ev hl
    unfold send_to_user
    rw [hl]

/-- C10 example: connect twice for user 1 and once for user 2, then remove
one of user 1's handles and user 2's only handle. -/
def c10ExampleOps : List RegOp :=
  [.connect 1 ⟨1, true⟩, .connect 2 ⟨2, true⟩, .connect 1 ⟨3, true⟩,
   .disconnect 1 ⟨1, true⟩, .disconnect 2 ⟨2, true⟩]

/-- Witness for C10: the example sequence succeeds, user 2's empty entry
was removed from the map, and the theorem applies to the final registry. -/
theorem c10_registry_maps_to_nonempty_witness :
    applyOps c10ExampleOps [] = .ok [(1, [⟨3, true⟩])] ∧
    ((∀ uid conns, (uid, conns) ∈ ([(1, [⟨3, true⟩])] : Registry) → conns ≠ []) ∧
     (∀ uid ev, lookupConns [(1, [⟨3, true⟩])] uid = none →
        send_to_user [(1, [⟨3, true⟩])] uid ev = ([(1, [⟨3, true⟩])], []))) :=
  ⟨rfl, c10_registry_maps_to_nonempty c10ExampleOps [(1, [⟨3, true⟩])] rfl⟩

/-! ## The service-layer store (`backend/app/services/*.py` over the schema
of `backend/alembic/versions/001_initial_schema.py`)

Rows are carried in insertion order.  The commit helpers enforce the
foreign keys declared by the migration on `message_status` and
`message_reactions` (`message_id → messages.id`, `user_id → users.id`):
a commit that violates them raises `IntegrityError`, modelled as
`Except.error`, and persists nothing. -/

/-- A `messages` row. -/
structure Msg where
  id : Nat
  conversation_id : Nat
  sender_id : Nat
  content : String
  version : Nat
  created_at : Nat
  updated_at : Option Nat
  edited_at : Option Nat
  deleted_at : Option Nat
deriving DecidableEq, Repr

/-- A `message_status` row. -/
structure StatusRow where
  message_id : Nat
  user_id : Nat
  status : String
  created_at : Nat
deriving DecidableEq, Repr

/-- A `message_versions` row. -/
structure VersionRow where
  message_id : Nat
  version : Nat
  content : String
deriving DecidableEq, Repr

/-- A `message_reactions` row. -/
structure ReactionRow where
  message_id : Nat
  user_id : Nat
  emoji : String
deriving DecidableEq, Repr

/-- A `conversations` row. -/
structure ConvRow where
  id : Nat
  type : String
deriving DecidableEq, Repr

/-- A `conversation_participants` row. -/
structure CPart where
  conversation_id : Nat
  user_id : Nat
deriving DecidableEq, Repr

/-- The relational state visible to the services; `users` is the list of
existing user ids. -/
structure SvcDB where
  users : List Nat
  conversations : List ConvRow
  participants : List CPart
  messages : List Msg
  statuses : List StatusRow
  versions : List VersionRow
  reactions : List ReactionRow
deriving DecidableEq, Repr

/-- `MessageService.get_message` (message ids are unique, so the first
match is the row). -/
def get_message (db : SvcDB) (mid : Nat) : Option Msg :=
  db.messages.find? (fun m => m.id == mid)

/-- The `message_status` lookup key used by `mark_as_delivered` and
`mark_as_read` (`message_id == mid AND user_id == uid`). -/
def statusKey (mid uid : Nat) : StatusRow → Bool :=
  fun r => r.message_id == mid && r.user_id == uid

/-- `scalar_one_or_none` over the status key (the schema's
`unique_message_user_status` constraint makes the first match the only
one). -/
def statusRowOf (db : SvcDB) (mid uid : Nat) : Option StatusRow :=
  db.statuses.find? (statusKey mid uid)

/-- The stored delivery status of message `mid` for user `uid`. -/
def statusOf (db : SvcDB) (mid uid : Nat) : Option String :=
  (statusRowOf db mid uid).map (fun r => r.status)

/-- SQLAlchemy mutates the fetched ORM row in place; over a list of rows
this is: update the first row satisfying `p`. -/
def updateFirst (p : α → Bool) (f : α → α) : List α → List α
  | [] => []
  | x :: xs => if p x then f x :: xs else x :: updateFirst p f xs

/-- Commit of a new `message_status` row: the migration's foreign keys
require the referenced message and user to exist, else `IntegrityError`. -/
def commitInsertStatus (db : SvcDB) (row : StatusRow) : Except String SvcDB :=
  if db.messages.any (fun m => m.id == row.message_id) && db.users.contains row.user_id then
    .ok { db with statuses := db.statuses ++ [row] }
  else .error "IntegrityError: foreign key violation"

/-- Commit of a new `message_reactions` row, with the same foreign keys. -/
def commitInsertReaction (db : SvcDB) (row : ReactionRow) : Except String SvcDB :=
  if db.messages.any (fun m => m.id == row.message_id) && db.users.contains row.user_id then
    .ok { db with reactions := db.reactions ++ [row] }
  else .error "IntegrityError: foreign key violation"

/-- The in-place ORM mutation `status.status = st; status.created_at = now`
of the row fetched by the (message, user) key. -/
def setStatusRow (db : SvcDB) (mid uid now : Nat) (st : String) : SvcDB :=
  { db with statuses := updateFirst (statusKey mid uid) (fun r => { r with status := st, created_at := now }) db.statuses }

/-- `MessageService.mark_as_delivered`: if a status row for (message, user)
exists, promote it to "delivered" only from "sent" (restamping
`created_at`), otherwise insert a fresh "delivered" row.  Returns `True`
whenever no exception is raised. -/
def mark_as_delivered (db : SvcDB) (mid uid now : Nat) : Except String (SvcDB × Bool) :=
  match statusRowOf db mid uid with
  | some st =>
    if st.status = "sent" then .ok (setStatusRow db mid uid now "delivered", true)
    else .ok (db, true)
  | none =>
    (commitInsertStatus db ⟨mid, uid, "delivered", now⟩).map (fun db' => (db', true))

/-- `MessageService.mark_as_read`: returns `False` without touching the
store when the message is missing or the caller is its sender; otherwise
updates the existing (message, user) row to "read" or inserts a fresh
"read" row. -/
def mark_as_read (db : SvcDB) (mid uid now : Nat) : Except String (SvcDB × Bool) :=
  match get_message db mid with
  | none => .ok (db, false)
  | some m =>
    if m.sender_id == uid then .ok (db, false)
    else
      match statusRowOf db mid uid with
      | some _ => .ok (setStatusRow db mid uid now "read", true)
      | none =>
        (commitInsertStatus db ⟨mid, uid, "read", now⟩).map (fun db' => (db', true))

/-- The in-place ORM mutation of `update_message`: overwrite content,
stamp `edited_at`/`updated_at`, increment `version`. -/
def applyEdit (content : String) (now : Nat) (mm : Msg) : Msg :=
  { mm with content := content, edited_at := some now, updated_at := some now, version := mm.version + 1 }

/-- `MessageService.update_message`: `None` on a missing message or a
non-sender caller (no mutation at all); otherwise append a
`MessageVersion` snapshot of the pre-edit content at the pre-edit version,
then overwrite content, stamp `edited_at`/`updated_at` and increment
`version` on the live row.  The route's response is
`get_message db' mid`. -/
def update_message (db : SvcDB) (mid uid : Nat) (content : String) (now : Nat) :
    Option SvcDB :=
  match get_message db mid with
  | none => none
  | some m =>
    if m.sender_id ≠ uid then none
    else
      some { db with versions := db.versions ++ [⟨m.id, m.version, m.content⟩], messages := updateFirst (fun mm => mm.id == mid) (applyEdit content now) db.messages }

/-- `MessageService.add_reaction`: a duplicate (message, user, emoji) add
is a no-op returning the current message; otherwise the row is inserted
and committed. -/
def add_reaction (db : SvcDB) (mid uid : Nat) (emoji : String) :
    Except String (SvcDB × Option Msg) :=
  match db.reactions.find? (fun r => r.message_id == mid && r.user_id == uid
      && r.emoji == emoji) with
  | some _ => .ok (db, get_message db mid)
  | none =>
    (commitInsertReaction db ⟨mid, uid, emoji⟩).map (fun db' => (db', get_message db' mid))

/-- The outer join of `ChatService.get_unread_count`: each message joined
with the status rows of the given user for it, or with `NULL` when there
is none. -/
def unread_join (db : SvcDB) (uid : Nat) : List (Msg × Option StatusRow) :=
  db.messages.flatMap (fun m =>
    match db.statuses.filter (statusKey m.id uid) with
    | [] => [(m, none)]
    | rs => rs.map (fun r => (m, some r)))

/-- The `WHERE` clause of `ChatService.get_unread_count` on a joined row:
conversation match, non-self sender, not soft-deleted, and status `NULL`
or not "read" (SQL's `status IS NULL OR status != 'read'`). -/
def unreadCond (cid uid : Nat) (p : Msg × Option StatusRow) : Bool :=
  p.1.conversation_id == cid && !(p.1.sender_id == uid) && p.1.deleted_at.isNone &&
  (match p.2 with
   | none => true
   | some r => !(r.status == "read"))

/-- `ChatService.get_unread_count`: `COUNT` over the filtered outer join. -/
def get_unread_count (db : SvcDB) (cid uid : Nat) : Nat :=
  ((unread_join db uid).filter (unreadCond cid uid)).length

/-- The unread predicate in the specification's words: messages of the
conversation whose sender is not the user, not soft-deleted, whose
per-(message, user) status is absent or differs from "read". -/
def unreadSpecPred (db : SvcDB) (cid uid : Nat) (m : Msg) : Bool :=
  m.conversation_id == cid && !(m.sender_id == uid) && m.deleted_at.isNone &&
  (match statusOf db m.id uid with
   | none => true
   | some s => !(s == "read"))

/-- The unread count as the specification words it. -/
def unread_count_spec (db : SvcDB) (cid uid : Nat) : Nat :=
  (db.messages.filter (unreadSpecPred db cid uid)).length

/-- `ChatService.get_direct_conversation`: the two-stage lookup — a
grouped count of participant rows with `user_id IN (u1, u2)` equal to 2,
restricted to `type = 'direct'` — followed by the in-Python verification
that the participant id set is exactly the pair.  Returns the
conversation id. -/
def get_direct_conversation (db : SvcDB) (u1 u2 : Nat) : Option Nat :=
  ((db.conversations.filter (fun c =>
      ((db.participants.filter (fun r => r.conversation_id == c.id
          && (r.user_id == u1 || r.user_id == u2))).length == 2)
      && c.type == "direct")).find? (fun c =>
    ((db.participants.filter (fun r => r.conversation_id == c.id)).map
        (fun r => r.user_id)).all (fun p => p == u1 || p == u2)
    && ((db.participants.filter (fun r => r.conversation_id == c.id)).map
        (fun r => r.user_id)).contains u1
    && ((db.participants.filter (fun r => r.conversation_id == c.id)).map
        (fun r => r.user_id)).contains u2)).map (fun c => c.id)

/-- `create_or_get_direct_chat` (`backend/app/main.py` lines 518-561):
the existing-chat query returns the first chat having exactly two
participant rows with `user_id IN (me, contact)`; only when none matches
is the contact's existence checked and a fresh two-participant chat
created. -/
def create_or_get_direct_chat (db : MainDB) (meId : Nat) (meName : String)
    (contactId : Nat) : Except String (MainDB × Nat) :=
  match db.chats.find? (fun c =>
      (db.chatParticipants.filter (fun r => r.chat_id == c.id
          && (r.user_id == meId || r.user_id == contactId))).length == 2) with
  | some c => .ok (db, c.id)
  | none =>
    match db.users.find? (fun u => u.1 == contactId) with
    | none => .error "404: Contact user not found"
    | some cu =>
      let cid := db.nextChatId
      .ok ({ db with
        chats := db.chats ++ [⟨cid, "Chat: " ++ meName ++ " & " ++ cu.2⟩],
        chatParticipants := db.chatParticipants ++ [⟨cid, meId⟩, ⟨cid, contactId⟩],
        nextChatId := cid + 1 }, cid)

/-! ## Lemmas about first-match row updates -/

theorem find?_updateFirst (p : α → Bool) (f : α → α) (l : List α)
    (hf : ∀ x, p (f x) = p x) :
    (updateFirst p f l).find? p = (l.find? p).map f := by
  induction l with
  | nil => rfl
  | cons x xs ih =>
    unfold updateFirst
    by_cases hx : p x = true
    · rw [if_pos hx, List.find?_cons_of_pos _ ((hf x).trans hx), List.find?_cons_of_pos _ hx]
      rfl
    · rw [if_neg hx, List.find?_cons_of_neg _ hx, List.find?_cons_of_neg _ hx, ih]

theorem mem_updateFirst (p : α → Bool) (f : α → α) (l : List α) (y : α)
    (hy : y ∈ updateFirst p f l) : y ∈ l ∨ ∃ x ∈ l, y = f x := by
  induction l with
  | nil => cases hy
  | cons x xs ih =>
    unfold updateFirst at hy
    by_cases hx : p x = true
    · rw [if_pos hx] at hy
      rcases List.mem_cons.mp hy with rfl | hy
      · exact Or.inr ⟨x, List.mem_cons_self x xs, rfl⟩
      · exact Or.inl (List.mem_cons_of_mem x hy)
    · rw [if_neg hx] at hy
      rcases List.mem_cons.mp hy with rfl | hy
      · exact Or.inl (List.mem_cons_self _ xs)
      · rcases ih hy with h | ⟨z, hz, hzz⟩
        · exact Or.inl (List.mem_cons_of_mem x h)
        · exact Or.inr ⟨z, List.mem_cons_of_mem x hz, hzz⟩

theorem statusRowOf_setStatusRow (db : SvcDB) (mid uid now : Nat) (st : String) :
    statusRowOf (setStatusRow db mid uid now st) mid uid =
      (statusRowOf db mid uid).map (fun r => { r with status := st, created_at := now }) := by
  unfold statusRowOf setStatusRow
  exact find?_updateFirst _ _ _ (fun x => rfl)

theorem statusOf_setStatusRow (db : SvcDB) (mid uid now : Nat) (st : String) (r : StatusRow)
    (h : statusRowOf db mid uid = some r) :
    statusOf (setStatusRow db mid uid now st) mid uid = some st := by
  unfold statusOf
  rw [statusRowOf_setStatusRow, h]
  rfl

theorem statusRowOf_insert (db : SvcDB) (row : StatusRow) (mid uid : Nat)
    (h : statusRowOf db mid uid = none) (hk : statusKey mid uid row = true) :
    statusRowOf { db with statuses := db.statuses ++ [row] } mid uid = some row := by
  unfold statusRowOf at h ⊢
  rw [List.find?_append, h, List.find?_singleton, if_pos hk]
  rfl

theorem commitInsertStatus_ok (db : SvcDB) (row : StatusRow)
    (hm : db.messages.any (fun m => m.id == row.message_id) = true)
    (hu : db.users.contains row.user_id = true) :
    commitInsertStatus db row = .ok { db with statuses := db.statuses ++ [row] } := by
  have hu' : row.user_id ∈ db.users := by simpa using hu
  simp [commitInsertStatus, hm, hu']

/-- Position of a delivery status on the `sent → delivered → read` chain
(`none` = no row yet). -/
def statusRank : Option String → Nat
  | none => 0
  | some s => if s == "sent" then 1 else if s == "delivered" then 2 else if s == "read" then 3 else 0

theorem statusRank_le_three (o : Option String) : statusRank o ≤ 3 := by
  cases o with
  | none => exact Nat.zero_le 3
  | some s =>
    unfold statusRank
    by_cases h1 : (s == "sent") = true <;> by_cases h2 : (s == "delivered") = true <;>
      by_cases h3 : (s == "read") = true <;> simp [h1, h2, h3]

/-! ## Claims about the message-status engine (C2, C8) -/

/-- Example service store: conversation 1 with participants 1 and 2; one
message (id 1) sent by user 1 with content "hi" at version 1, carrying its
initial "sent" status row for the sender. -/
def svcExampleDB : SvcDB :=
  ⟨[1, 2], [⟨1, "direct"⟩], [⟨1, 1⟩, ⟨1, 2⟩], [⟨1, 1, 1, "hi", 1, 0, none, none, none⟩],
   [⟨1, 1, "sent", 0⟩], [], []⟩

/-- The message row of `svcExampleDB`. -/
def msgExample : Msg := ⟨1, 1, 1, "hi", 1, 0, none, none, none⟩

/-- Claim C2: delivery status transitions are forward-only on
`sent → delivered → read`: both `mark_as_delivered` and `mark_as_read`
never lower the stored rank, and marking a message read and then delivered
leaves the stored status "read" (`mark_as_delivered` never overwrites a
"read" or "delivered" row). -/
theorem c2_status_forward_only :
    (∀ db mid uid now db' b, mark_as_delivered db mid uid now = .ok (db', b) →
      statusRank (statusOf db mid uid) ≤ statusRank (statusOf db' mid uid)) ∧
    (∀ db mid uid now db' b, mark_as_read db mid uid now = .ok (db', b) →
      statusRank (statusOf db mid uid) ≤ statusRank (statusOf db' mid uid)) ∧
    (∀ db mid uid now now' m, get_message db mid = some m → m.sender_id ≠ uid →
      uid ∈ db.users →
      ∃ db1, mark_as_read db mid uid now = .ok (db1, true) ∧
        statusOf db1 mid uid = some "read" ∧
        ∃ db2 b, mark_as_delivered db1 mid uid now' = .ok (db2, b) ∧
          statusOf db2 mid uid = some "read") := by
  refine ⟨?_, ?_, ?_⟩
  · intro db mid uid now db' b h
    unfold mark_as_delivered at h
    split at h
    · rename_i st hs
      split at h
      · rename_i hsent
        simp only [Except.ok.injEq, Prod.mk.injEq] at h
        obtain ⟨rfl, rfl⟩ := h
        have h1 : statusOf db mid uid = some "sent" := by
          unfold statusOf
          rw [hs]
          simp [hsent]
        rw [h1, statusOf_setStatusRow db mid uid now "delivered" st hs]
        decide
      · simp only [Except.ok.injEq, Prod.mk.injEq] at h
        obtain ⟨rfl, rfl⟩ := h
        exact Nat.le_refl _
    · rename_i hs
      have h0 : statusOf db mid uid = none := by
        unfold statusOf
        rw [hs]
        rfl
      rw [h0]
      exact Nat.zero_le _
  · intro db mid uid now db' b h
    unfold mark_as_read at h
    split at h
    · simp only [Except.ok.injEq, Prod.mk.injEq] at h
      obtain ⟨rfl, rfl⟩ := h
      exact Nat.le_refl _
    · rename_i m hm
      split at h
      · simp only [Except.ok.injEq, Prod.mk.injEq] at h
        obtain ⟨rfl, rfl⟩ := h
        exact Nat.le_refl _
      · split at h
        · rename_i r hs
          simp only [Except.ok.injEq, Prod.mk.injEq] at h
          obtain ⟨rfl, rfl⟩ := h
          rw [statusOf_setStatusRow db mid uid now "read" r hs]
          exact statusRank_le_three _
        · rename_i hs
          have h0 : statusOf db mid uid = none := by
            unfold statusOf
            rw [hs]
            rfl
          rw [h0]
          exact Nat.zero_le _
  · intro db mid uid now now' m hm hsender huid
    have hbeq : (m.sender_id == uid) = false := by simpa using hsender
    cases hs : statusRowOf db mid uid with
    | some r =>
      refine ⟨setStatusRow db mid uid now "read", ?_, ?_, ?_⟩
      · simp [mark_as_read, hm, hbeq, hs]
      · exact statusOf_setStatusRow db mid uid now "read" r hs
      · have hrow : statusRowOf (setStatusRow db mid uid now "read") mid uid =
            some { r with status := "read", created_at := now } := by
          rw [statusRowOf_setStatusRow, hs]
          rfl
        refine ⟨setStatusRow db mid uid now "read", true, ?_, ?_⟩
        · simp [mark_as_delivered, hrow]
        · exact statusOf_setStatusRow db mid uid now "read" r hs
    | none =>
      have hmem := List.mem_of_find?_eq_some hm
      have hid := List.find?_some hm
      have hany : db.messages.any (fun mm => mm.id == mid) = true :=
        List.any_eq_true.mpr ⟨m, hmem, hid⟩
      have hcontains : db.users.contains uid = true := by simpa using huid
      have hcommit := commitInsertStatus_ok db ⟨mid, uid, "read", now⟩ hany hcontains
      have hrow : statusRowOf { db with statuses := db.statuses ++ [⟨mid, uid, "read", now⟩] }
          mid uid = some ⟨mid, uid, "read", now⟩ :=
        statusRowOf_insert db ⟨mid, uid, "read", now⟩ mid uid hs (by simp [statusKey])
      refine ⟨{ db with statuses := db.statuses ++ [⟨mid, uid, "read", now⟩] }, ?_, ?_, ?_⟩
      · simp [mark_as_read, hm, hbeq, hs, hcommit, Except.map]
      · unfold statusOf
        rw [hrow]
        rfl
      · refine ⟨{ db with statuses := db.statuses ++ [⟨mid, uid, "read", now⟩] }, true, ?_, ?_⟩
        · simp [mark_as_delivered, hrow]
        · unfold statusOf
          rw [hrow]
          rfl

/-- Witness for C2 at `svcExampleDB`: user 2 reads message 1 (sent by user
1) and a later delivered-mark does not regress it. -/
theorem c2_status_forward_only_witness :
    (get_message svcExampleDB 1 = some msgExample ∧ msgExample.sender_id ≠ 2 ∧
      2 ∈ svcExampleDB.users) ∧
    (∃ db1, mark_as_read svcExampleDB 1 2 5 = .ok (db1, true) ∧
      statusOf db1 1 2 = some "read" ∧
      ∃ db2 b, mark_as_delivered db1 1 2 6 = .ok (db2, b) ∧
        statusOf db2 1 2 = some "read") :=
  ⟨⟨rfl, by decide, by decide⟩,
   c2_status_forward_only.2.2 svcExampleDB 1 2 5 6 msgExample rfl (by decide) (by decide)⟩

/-- Claim C8: a sender marking their own message as read gets `False` back
and the store is left exactly unchanged — no `MessageStatus` row for
(message, sender) is created or modified, so the sender keeps only the
initial "sent" row. -/
theorem c8_self_read_rejected (db : SvcDB) (mid uid now : Nat) (m : Msg)
    (hm : get_message db mid = some m) (hs : m.sender_id = uid) :
    mark_as_read db mid uid now = .ok (db, false) := by
  have hbeq : (m.sender_id == uid) = true := by simpa using hs
  simp [mark_as_read, hm, hbeq]

/-- Witness for C8: user 1 fails to read their own message 1, and the
sender's status row still reads "sent" afterwards. -/
theorem c8_self_read_rejected_witness :
    (get_message svcExampleDB 1 = some msgExample ∧ msgExample.sender_id = 1) ∧
    mark_as_read svcExampleDB 1 1 4 = .ok (svcExampleDB, false) ∧
    statusOf svcExampleDB 1 1 = some "sent" :=
  ⟨⟨rfl, rfl⟩, c8_self_read_rejected svcExampleDB 1 1 4 msgExample rfl rfl, rfl⟩

/-- Claim C3: a successful edit by the sender appends exactly one
`MessageVersion` row holding the pre-edit version and content, and leaves
the live message with the new content, incremented version and a stamped
`edited_at`; status and reaction rows are untouched. -/
theorem c3_edit_appends_single_version (db : SvcDB) (mid uid : Nat) (c : String)
    (now : Nat) (m : Msg) (hm : get_message db mid = some m) (hs : m.sender_id = uid) :
    ∃ db', update_message db mid uid c now = some db' ∧
      db'.versions = db.versions ++ [⟨mid, m.version, m.content⟩] ∧
      (∃ m', get_message db' mid = some m' ∧ m'.content = c ∧
        m'.version = m.version + 1 ∧ m'.edited_at = some now) ∧
      db'.statuses = db.statuses ∧ db'.reactions = db.reactions := by
  have hid : m.id = mid := by simpa using List.find?_some hm
  refine ⟨{ db with versions := db.versions ++ [⟨m.id, m.version, m.content⟩], messages := updateFirst (fun mm => mm.id == mid) (applyEdit c now) db.messages }, ?_, ?_, ?_, rfl, rfl⟩
  · simp [update_message, hm, hs]
  · rw [hid]
  · refine ⟨applyEdit c now m, ?_, rfl, rfl, rfl⟩
    show (updateFirst (fun mm => mm.id == mid) (applyEdit c now) db.messages).find?
      (fun mm => mm.id == mid) = some (applyEdit c now m)
    have hm' : db.messages.find? (fun mm => mm.id == mid) = some m := hm
    rw [find?_updateFirst (fun mm => mm.id == mid) (applyEdit c now) db.messages
      (fun x => rfl), hm']
    rfl

/-- Witness for C3: user 1 edits message 1 from "hi" (version 1) to
"hello". -/
theorem c3_edit_appends_single_version_witness :
    (get_message svcExampleDB 1 = some msgExample ∧ msgExample.sender_id = 1) ∧
    (∃ db', update_message svcExampleDB 1 1 "hello" 9 = some db' ∧
      db'.versions = svcExampleDB.versions ++ [⟨1, msgExample.version, msgExample.content⟩] ∧
      (∃ m', get_message db' 1 = some m' ∧ m'.content = "hello" ∧
        m'.version = msgExample.version + 1 ∧ m'.edited_at = some 9) ∧
      db'.statuses = svcExampleDB.statuses ∧ db'.reactions = svcExampleDB.reactions) :=
  ⟨⟨rfl, rfl⟩, c3_edit_appends_single_version svcExampleDB 1 1 "hello" 9 msgExample rfl rfl⟩

/-! ## Claim C9: status/reaction rows reference existing messages -/

/-- The `message_status.message_id → messages.id` foreign key as a state
invariant. -/
def StatusFK (db : SvcDB) : Prop :=
  ∀ r ∈ db.statuses, ∃ m ∈ db.messages, m.id = r.message_id

/-- The `message_reactions.message_id → messages.id` foreign key as a
state invariant. -/
def ReactionFK (db : SvcDB) : Prop :=
  ∀ r ∈ db.reactions, ∃ m ∈ db.messages, m.id = r.message_id

/-- Claim C9: `mark_as_delivered` and `add_reaction` never leave behind a
status or reaction row whose message does not exist: the update branches
touch no message id, and the insert branches go through the schema's
foreign-key check, which rejects a missing message at commit time.  Thus
both foreign-key invariants are preserved by every successful call. -/
theorem c9_rows_reference_existing_messages
    (db : SvcDB) (mid uid now : Nat) (emoji : String)
    (hs : StatusFK db) (hr : ReactionFK db) :
    (∀ db' b, mark_as_delivered db mid uid now = .ok (db', b) →
      StatusFK db' ∧ ReactionFK db') ∧
    (∀ db' res, add_reaction db mid uid emoji = .ok (db', res) →
      StatusFK db' ∧ ReactionFK db') := by
  constructor
  · intro db' b h
    unfold mark_as_delivered at h
    split at h
    · rename_i st hst
      split at h
      · simp only [Except.ok.injEq, Prod.mk.injEq] at h
        obtain ⟨rfl, rfl⟩ := h
        constructor
        · intro r hrr
          rcases mem_updateFirst _ _ _ r hrr with hmem | ⟨x, hx, rfl⟩
          · exact hs r hmem
          · rcases hs x hx with ⟨mm, hmm, hmmid⟩
            exact ⟨mm, hmm, hmmid⟩
        · intro r hrr
          exact hr r hrr
      · simp only [Except.ok.injEq, Prod.mk.injEq] at h
        obtain ⟨rfl, rfl⟩ := h
        exact ⟨hs, hr⟩
    · unfold commitInsertStatus at h
      split at h
      · rename_i hfk
        simp only [Except.map, Except.ok.injEq, Prod.mk.injEq] at h
        obtain ⟨rfl, rfl⟩ := h
        constructor
        · intro r hrr
          rcases List.mem_append.mp hrr with hmem | hmem
          · exact hs r hmem
          · simp only [List.mem_singleton] at hmem
            subst hmem
            have hfk' : db.messages.any (fun m => m.id == mid) = true ∧
                db.users.contains uid = true := by
              rw [Bool.and_eq_true] at hfk
              exact hfk
            have hany := hfk'.1
            rcases List.any_eq_true.mp hany with ⟨mm, hmm, hbeq⟩
            exact ⟨mm, hmm, by simpa using hbeq⟩
        · intro r hrr
          exact hr r hrr
      · simp [Except.map] at h
  · intro db' res h
    unfold add_reaction at h
    split at h
    · simp only [Except.ok.injEq, Prod.mk.injEq] at h
      obtain ⟨rfl, rfl⟩ := h
      exact ⟨hs, hr⟩
    · unfold commitInsertReaction at h
      split at h
      · rename_i hfk
        simp only [Except.map, Except.ok.injEq, Prod.mk.injEq] at h
        obtain ⟨rfl, rfl⟩ := h
        refine ⟨fun r hrr => hs r hrr, ?_⟩
        intro r hrr
        rcases List.mem_append.mp hrr with hmem | hmem
        · exact hr r hmem
        · simp only [List.mem_singleton] at hmem
          subst hmem
          have hfk' : db.messages.any (fun m => m.id == mid) = true ∧
              db.users.contains uid = true := by
            rw [Bool.and_eq_true] at hfk
            exact hfk
          have hany := hfk'.1
          rcases List.any_eq_true.mp hany with ⟨mm, hmm, hbeq⟩
          exact ⟨mm, hmm, by simpa using hbeq⟩
      · simp [Except.map] at h

/-- Witness for C9 at `svcExampleDB`, delivering and reacting as user 2. -/
theorem c9_rows_reference_existing_messages_witness :
    (StatusFK svcExampleDB ∧ ReactionFK svcExampleDB) ∧
    ((∀ db' b, mark_as_delivered svcExampleDB 1 2 7 = .ok (db', b) →
        StatusFK db' ∧ ReactionFK db') ∧
     (∀ db' res, add_reaction svcExampleDB 1 2 "+1" = .ok (db', res) →
        StatusFK db' ∧ ReactionFK db')) :=
  ⟨⟨by unfold StatusFK; decide, by unfold ReactionFK; decide⟩,
   c9_rows_reference_existing_messages svcExampleDB 1 2 7 "+1"
     (by unfold StatusFK; decide) (by unfold ReactionFK; decide)⟩

/-! ## Claim C5: the unread count -/

/-- The schema's `unique_message_user_status` constraint: no two status
rows share a (message, user) key. -/
def NodupStatusKeys (db : SvcDB) : Prop :=
  db.statuses.Pairwise (fun a b => a.message_id ≠ b.message_id ∨ a.user_id ≠ b.user_id)

/-- Under key uniqueness, filtering by a (message, user) key yields the
lone `find?` match, if any. -/
theorem filter_statusKey_eq (l : List StatusRow) (mid uid : Nat)
    (h : l.Pairwise (fun a b => a.message_id ≠ b.message_id ∨ a.user_id ≠ b.user_id)) :
    l.filter (statusKey mid uid) =
      match l.find? (statusKey mid uid) with
      | none => []
      | some r => [r] := by
  induction l with
  | nil => rfl
  | cons x xs ih =>
    rcases List.pairwise_cons.mp h with ⟨hx, hxs⟩
    by_cases hpx : statusKey mid uid x = true
    · rw [List.filter_cons_of_pos hpx, List.find?_cons_of_pos _ hpx]
      have hnil : xs.filter (statusKey mid uid) = [] := by
        rw [List.filter_eq_nil_iff]
        intro a ha hpa
        have hpx' := hpx
        have hpa' := hpa
        unfold statusKey at hpx' hpa'
        rw [Bool.and_eq_true] at hpx' hpa'
        obtain ⟨hx1, hx2⟩ := hpx'
        obtain ⟨ha1, ha2⟩ := hpa'
        have ex1 : x.message_id = mid := by simpa using hx1
        have ex2 : x.user_id = uid := by simpa using hx2
        have ea1 : a.message_id = mid := by simpa using ha1
        have ea2 : a.user_id = uid := by simpa using ha2
        rcases hx a ha with hne | hne
        · exact hne (ex1.trans ea1.symm)
        · exact hne (ex2.trans ea2.symm)
      rw [hnil]
    · rw [List.filter_cons_of_neg hpx, List.find?_cons_of_neg _ hpx]
      exact ih hxs

/-- Claim C5: `get_unread_count` computes exactly the specification's
count — the number of messages of the conversation whose sender is not the
user, that are not soft-deleted, and whose per-(message, user) status row
is absent or not "read". -/
theorem c5_unread_count_matches_spec (db : SvcDB) (cid uid : Nat)
    (hwf : NodupStatusKeys db) :
    get_unread_count db cid uid = unread_count_spec db cid uid := by
  unfold get_unread_count unread_count_spec unread_join
  generalize db.messages = msgs
  induction msgs with
  | nil => rfl
  | cons m ms ih =>
    rw [List.flatMap_cons, List.filter_append, List.length_append, ih, List.filter_cons]
    have hsingle : ((match db.statuses.filter (statusKey m.id uid) with
        | [] => [(m, (none : Option StatusRow))]
        | rs => rs.map (fun r => (m, some r))).filter (unreadCond cid uid)).length =
        if unreadSpecPred db cid uid m then 1 else 0 := by
      cases hf : db.statuses.find? (statusKey m.id uid) with
      | none =>
        have hfil : db.statuses.filter (statusKey m.id uid) = [] := by
          rw [filter_statusKey_eq _ _ _ hwf, hf]
        rw [hfil, List.filter_singleton]
        have hc : unreadCond cid uid (m, none) = unreadSpecPred db cid uid m := by
          unfold unreadCond unreadSpecPred statusOf statusRowOf
          rw [hf]
          rfl
        rw [hc]
        by_cases h : unreadSpecPred db cid uid m = true <;> simp [h]
      | some r =>
        have hfil : db.statuses.filter (statusKey m.id uid) = [r] := by
          rw [filter_statusKey_eq _ _ _ hwf, hf]
        rw [hfil]
        have hred : (match ([r] : List StatusRow) with
            | [] => [(m, (none : Option StatusRow))]
            | rs => rs.map (fun r => (m, some r))) = [(m, some r)] := rfl
        rw [hred, List.filter_singleton]
        have hc : unreadCond cid uid (m, some r) = unreadSpecPred db cid uid m := by
          unfold unreadCond unreadSpecPred statusOf statusRowOf
          rw [hf]
          rfl
        rw [hc]
        by_cases h : unreadSpecPred db cid uid m = true <;> simp [h]
    rw [hsingle]
    by_cases h : unreadSpecPred db cid uid m = true
    · simp [h]
      omega
    · simp [h]

/-- Example store for C5: conversation 1 holds three messages from user 2
and one from user 1; no recipient status rows exist yet, only the senders'
"sent" rows. -/
def unreadExampleDB : SvcDB :=
  ⟨[1, 2], [⟨1, "direct"⟩], [⟨1, 1⟩, ⟨1, 2⟩],
   [⟨1, 1, 2, "m1", 1, 0, none, none, none⟩, ⟨2, 1, 2, "m2", 1, 0, none, none, none⟩,
    ⟨3, 1, 2, "m3", 1, 0, none, none, none⟩, ⟨4, 1, 1, "m4", 1, 0, none, none, none⟩],
   [⟨1, 2, "sent", 0⟩, ⟨2, 2, "sent", 0⟩, ⟨3, 2, "sent", 0⟩, ⟨4, 1, "sent", 0⟩],
   [], []⟩

/-- Witness for C5: with three unread messages from user 2 and one message
of user 1's own, user 1's unread count is 3 and matches the
specification's count. -/
theorem c5_unread_count_matches_spec_witness :
    NodupStatusKeys unreadExampleDB ∧
    (get_unread_count unreadExampleDB 1 1 = unread_count_spec unreadExampleDB 1 1 ∧
     get_unread_count unreadExampleDB 1 1 = 3) :=
  ⟨by unfold NodupStatusKeys; decide,
   c5_unread_count_matches_spec unreadExampleDB 1 1 (by unfold NodupStatusKeys; decide),
   by decide⟩

/-! ## Claim C4: the direct-conversation lookup -/

/-- A store holding a single three-person group chat (id 10) whose
participants are users 1, 2 and 3, as seen by `main.py`. -/
def groupExampleMainDB : MainDB :=
  ⟨[(1, "alice"), (2, "bob"), (3, "carol")], [⟨10, "team"⟩],
   [⟨10, 1⟩, ⟨10, 2⟩, ⟨10, 3⟩], 11⟩

/-- The same state as seen by the service layer: conversation 10 has type
"group" and participants 1, 2, 3. -/
def groupExampleSvcDB : SvcDB :=
  ⟨[1, 2, 3], [⟨10, "group"⟩], [⟨10, 1⟩, ⟨10, 2⟩, ⟨10, 3⟩], [], [], [], []⟩

/-- Claim C4 (code bug): `create_or_get_direct_chat 1 2` returns the group
chat 10, whose participant set is {1, 2, 3}, because exactly two of its
participant rows have ids in {1, 2} — the lookup does not require the
participant set to be exactly the pair.  The repo's own
`ChatService.get_direct_conversation`, which verifies the exact set,
returns nothing on the same state. -/
theorem c4_direct_chat_lookup_matches_group_chat :
    create_or_get_direct_chat groupExampleMainDB 1 "alice" 2 = .ok (groupExampleMainDB, 10) ∧
    (⟨10, 3⟩ : MPart) ∈ groupExampleMainDB.chatParticipants ∧
    (3 : Nat) ≠ 1 ∧ (3 : Nat) ≠ 2 ∧
    get_direct_conversation groupExampleSvcDB 1 2 = none :=
  ⟨rfl, by decide, by decide, by decide, rfl⟩

end SecretMessenger
